import Mathlib

/-!
Verification of the flow-pdf layout engine and renderer (a TypeScript
library) against its natural-language specification.

The source is shallowly embedded: TypeScript numbers are modeled as exact
rationals, extended with the JavaScript value `Infinity` where the source
manifestly relies on it (constraint maxima, layout-box dimensions); we use
`WithTop ℚ` for that, written `JNum` below.  Strings that participate in
text measurement are modeled as `List Char`; tag and color strings as
`String`.  Optional (possibly-`undefined`) TypeScript fields are `Option`
fields, and the few JavaScript truthiness tests the source performs
(`paddingValue ? … : undefined`, `!props.content`, `currentLine ? … : …`,
`props.backgroundColor || props.border`) are translated explicitly.
-/

namespace FlowPdf

/-- JavaScript numbers as used by this code base: exact rationals plus the
value `Infinity` (`⊤`).  `NaN` and `-Infinity` never arise on the code
paths modeled here. -/
abbrev JNum := WithTop ℚ

/-- JavaScript subtraction of a finite number from a possibly infinite one:
`Infinity - q = Infinity`, finite values subtract exactly. -/
def jsub (x : JNum) (q : ℚ) : JNum :=
  match x with
  | ⊤ => ⊤
  | (a : ℚ) => ((a - q : ℚ) : JNum)

/-- JavaScript division of a possibly infinite number by a positive child
count: `Infinity / n = Infinity`, finite values divide exactly. -/
def jdivNat (x : JNum) (n : ℕ) : JNum :=
  match x with
  | ⊤ => ⊤
  | (a : ℚ) => ((a / (n : ℚ) : ℚ) : JNum)

/-- Padding values for a box (core/types, `Padding`): four edge values. -/
structure Padding where
  top : ℚ
  right : ℚ
  bottom : ℚ
  left : ℚ
deriving DecidableEq

/-- A partial padding record (`{top?, right?, bottom?, left?}`) as accepted
by `createPadding`. -/
structure PartialPadding where
  top : Option ℚ
  right : Option ℚ
  bottom : Option ℚ
  left : Option ℚ
deriving DecidableEq

/-- The `number | Partial<Padding>` argument of `createPadding`. -/
inductive PaddingValue where
  | num (v : ℚ)
  | part (p : PartialPadding)
deriving DecidableEq

/-- core/types `createPadding`: a single number pads uniformly; a partial
record defaults missing edges to 0. -/
def createPadding : PaddingValue → Padding
  | .num v => ⟨v, v, v, v⟩
  | .part p => ⟨p.top.getD 0, p.right.getD 0, p.bottom.getD 0, p.left.getD 0⟩

/-- JavaScript truthiness of a `number | Partial<Padding>` value: the
number 0 is falsy, every object is truthy. -/
def PaddingValue.truthy : PaddingValue → Bool
  | .num v => v ≠ 0
  | .part _ => true

/-- The calculators' shared padding resolution
(`paddingValue ? createPadding(paddingValue) : undefined`). -/
def resolvePadding : Option PaddingValue → Option Padding
  | none => none
  | some pv => if pv.truthy then some (createPadding pv) else none

/-- box-model.ts `getHorizontalPadding`: total horizontal padding, 0 when
no padding is present. -/
def getHorizontalPadding : Option Padding → ℚ
  | none => 0
  | some p => p.left + p.right

/-- box-model.ts `getVerticalPadding`. -/
def getVerticalPadding : Option Padding → ℚ
  | none => 0
  | some p => p.top + p.bottom

/-- Layout constraints (constraints.ts).  The maxima may be `Infinity`
(spec §3: "max may be unbounded"); the minima the engine constructs are
always finite. -/
structure Constraints where
  minWidth : ℚ
  maxWidth : JNum
  minHeight : ℚ
  maxHeight : JNum
deriving DecidableEq

/-- constraints.ts `constrainWidth`:
`Math.max(minWidth, Math.min(width, maxWidth))`. -/
def constrainWidth (width : JNum) (c : Constraints) : JNum :=
  max (c.minWidth : JNum) (min width c.maxWidth)

/-- constraints.ts `constrainHeight`. -/
def constrainHeight (height : JNum) (c : Constraints) : JNum :=
  max (c.minHeight : JNum) (min height c.maxHeight)

/-- The computed layout for a node (core/types `LayoutBox`). -/
structure LayoutBox where
  x : JNum
  y : JNum
  width : JNum
  height : JNum
  padding : Option Padding
deriving DecidableEq

/-- core/types `TextAlign`. -/
inductive TextAlign where
  | left | center | right | justify
deriving DecidableEq

/-- core/types `FontWeight`. -/
inductive FontWeight where
  | normal | bold
deriving DecidableEq

/-- core/types `FontStyle`. -/
inductive FontStyle where
  | normal | italic
deriving DecidableEq

/-- core/types `StackAlign` (`'end'` is rendered as `stop` because `end`
is a Lean keyword). -/
inductive StackAlign where
  | start | center | stop | stretch
deriving DecidableEq

/-- core/types `TextStyle` (the node-level one). -/
structure TextStyle where
  fontSize : Option ℚ
  fontWeight : Option FontWeight
  fontStyle : Option FontStyle
  color : Option String
  align : Option TextAlign
  lineHeight : Option ℚ
deriving DecidableEq

/-- core/types `TextProps` (the `id`/`testId` bookkeeping fields, never
read by layout or rendering, are omitted). -/
structure TextProps where
  content : List Char
  style : Option TextStyle
  width : Option ℚ
  height : Option ℚ
deriving DecidableEq

/-- core/types `StackProps`. -/
structure StackProps where
  spacing : Option ℚ
  align : Option StackAlign
  width : Option ℚ
  height : Option ℚ
  padding : Option PaddingValue
deriving DecidableEq

/-- core/types `DividerOrientation`. -/
inductive DividerOrientation where
  | horizontal | vertical
deriving DecidableEq

/-- core/types line style names (`'solid' | 'dashed' | 'dotted'`). -/
inductive LineStyleKind where
  | solid | dashed | dotted
deriving DecidableEq

/-- core/types `DividerProps`. -/
structure DividerProps where
  orientation : Option DividerOrientation
  thickness : Option ℚ
  length : Option ℚ
  color : Option String
  style : Option LineStyleKind
deriving DecidableEq

/-- core/types `SpacerProps`. -/
structure SpacerProps where
  width : Option ℚ
  height : Option ℚ
  flex : Option ℚ
deriving DecidableEq

/-- core/types `BorderStyle`. -/
structure BorderStyle where
  width : Option ℚ
  color : Option String
  style : Option LineStyleKind
  radius : Option ℚ
deriving DecidableEq

/-- core/types `BoxProps`. -/
structure BoxProps where
  width : Option ℚ
  height : Option ℚ
  padding : Option PaddingValue
  backgroundColor : Option String
  border : Option BorderStyle
deriving DecidableEq

/-- The document node union (core/types `Node`).  The first six
constructors are the TypeScript union's variants.  `unknown tag` models a
runtime node value whose `type` tag is not one of the six registered ones:
TypeScript erases types at runtime and `LayoutEngine.layoutNode` reads only
`node.type`, checking its calculator registry defensively; the constructor
is only ever used with tags outside the default registry. -/
inductive Node where
  | text (props : TextProps)
  | vStack (props : StackProps) (children : List Node)
  | hStack (props : StackProps) (children : List Node)
  | divider (props : DividerProps)
  | spacer (props : SpacerProps)
  | box (props : BoxProps) (children : List Node)
  | unknown (tag : String)

/-- The runtime `node.type` tag. -/
def nodeType : Node → String
  | .text _ => "text"
  | .vStack _ _ => "vStack"
  | .hStack _ _ => "hStack"
  | .divider _ => "divider"
  | .spacer _ => "spacer"
  | .box _ _ => "box"
  | .unknown tag => tag

/-- The tags the engine constructor registers calculators for
(spacer-calculator.ts part 2, `LayoutEngine` constructor). -/
def registeredNodeTypes : List String :=
  ["text", "vStack", "hStack", "divider", "spacer", "box"]

mutual

/-- Whether a runtime node tree consists solely of the six variants of the
TypeScript union (no `unknown` tag anywhere). -/
def wellFormed : Node → Bool
  | .text _ => true
  | .divider _ => true
  | .spacer _ => true
  | .vStack _ ch => wellFormedList ch
  | .hStack _ ch => wellFormedList ch
  | .box _ ch => wellFormedList ch
  | .unknown _ => false

/-- List form of `wellFormed`. -/
def wellFormedList : List Node → Bool
  | [] => true
  | n :: ns => wellFormed n && wellFormedList ns

end

mutual

/-- node-visitor.ts `countNodes`: one for the node itself plus, for the
container variants, the counts of all children.  (An `unknown` node matches
none of the container type guards, so it counts as 1.) -/
def countNodes : Node → ℕ
  | .vStack _ ch => 1 + countNodesList ch
  | .hStack _ ch => 1 + countNodesList ch
  | .box _ ch => 1 + countNodesList ch
  | _ => 1

/-- List form of `countNodes` (the `reduce` over children). -/
def countNodesList : List Node → ℕ
  | [] => 0
  | n :: ns => countNodes n + countNodesList ns

end

/-- Whitespace as matched by the JavaScript regex class `\s` (restricted
to the ASCII whitespace characters that can appear in the model). -/
def isWsChar (c : Char) : Bool :=
  c == ' ' || c == '\t' || c == '\n' || c == '\r' || c == '\x0b' || c == '\x0c'

/-- The word list produced by `text.split(/\s+/)`: the substrings between
maximal nonempty whitespace runs.  A leading or trailing run contributes an
empty boundary word, exactly as in JavaScript (`''.split(/\s+/) = ['']`,
`' a '.split(/\s+/) = ['', 'a', '']`). -/
def splitWsChunks : List Char → List (List Char)
  | [] => [[]]
  | c :: cs =>
    if isWsChar c then
      match cs with
      | [] => [[], []]
      | c2 :: _ =>
        if isWsChar c2 then splitWsChunks cs else [] :: splitWsChunks cs
    else
      match splitWsChunks cs with
      | [] => [[c]]
      | t :: ts => (c :: t) :: ts

namespace DefaultFontMetrics

/-- `DefaultFontMetrics.avgCharWidthRatio = 0.6` (renamed: Lean identifier
restrictions). -/
def avgCharWidthFactor : ℚ := 3 / 5

/-- `DefaultFontMetrics.lineHeightRatio = 1.2` (renamed likewise). -/
def lineHeightFactor : ℚ := 6 / 5

/-- `DefaultFontMetrics.measureText`: `text.length * fontSize * 0.6`. -/
def measureText (text : List Char) (fontSize : ℚ) : ℚ :=
  (text.length : ℚ) * fontSize * avgCharWidthFactor

/-- `DefaultFontMetrics.getLineHeight`: `fontSize * 1.2`. -/
def getLineHeight (fontSize : ℚ) : ℚ :=
  fontSize * lineHeightFactor

/-- The body of the `for (const word of words)` loop of
`DefaultFontMetrics.breakLines`, acting on the state
`(lines, currentLine)`.  Note the JavaScript truthiness tests: an empty
`currentLine` joins without a space and is never flushed. -/
def breakLinesStep (fontSize : ℚ) (maxWidth : JNum)
    (st : List (List Char) × List Char) (word : List Char) :
    List (List Char) × List Char :=
  let lines := st.1
  let currentLine := st.2
  let testLine := if currentLine ≠ [] then currentLine ++ ' ' :: word else word
  if ((measureText testLine fontSize : ℚ) : JNum) ≤ maxWidth then
    (lines, testLine)
  else
    let lines1 := if currentLine ≠ [] then lines ++ [currentLine] else lines
    if maxWidth < ((measureText word fontSize : ℚ) : JNum) then
      (lines1 ++ [word], [])
    else
      (lines1, word)

/-- `DefaultFontMetrics.breakLines` (part_005 lines 88–128): returns
`[text]` for `maxWidth === Infinity`; otherwise splits on whitespace runs,
accumulates greedily via `breakLinesStep`, flushes the trailing line, and
falls back to `['']` when no line was produced. -/
def breakLines (text : List Char) (fontSize : ℚ) (maxWidth : JNum) :
    List (List Char) :=
  if maxWidth = ⊤ then [text]
  else
    let words := splitWsChunks text
    let st := words.foldl (breakLinesStep fontSize maxWidth) ([], [])
    let lines := if st.2 ≠ [] then st.1 ++ [st.2] else st.1
    if 0 < lines.length then lines else [[]]

end DefaultFontMetrics

/-- The greedy accumulation policy exactly as the specification words it
(spec §4.2 and claim C3): the next word is appended to the current line iff
the candidate line's measured width stays ≤ `maxWidth`; otherwise the
current line (if any has been accumulated) is flushed and a new line starts
with that word, a word single-handedly wider than `maxWidth` being emitted
immediately as its own line.  This is the spec-side definition that the
source-side `breakLinesStep` is compared against. -/
def greedyStepSpec (fontSize : ℚ) (maxWidth : JNum)
    (st : List (List Char) × List Char) (word : List Char) :
    List (List Char) × List Char :=
  let candidate := if st.2 ≠ [] then st.2 ++ ' ' :: word else word
  let flushed := if st.2 ≠ [] then st.1 ++ [st.2] else st.1
  if ((DefaultFontMetrics.measureText candidate fontSize : ℚ) : JNum) ≤ maxWidth then
    (st.1, candidate)
  else if maxWidth < ((DefaultFontMetrics.measureText word fontSize : ℚ) : JNum) then
    (flushed ++ [word], [])
  else
    (flushed, word)

/-- The pluggable font-metrics capability (base-calculator.ts
`FontMetrics`), as consumed by the text calculator. -/
structure FontMetricsM where
  measureText : List Char → ℚ → ℚ
  getLineHeight : ℚ → ℚ
  breakLines : List Char → ℚ → JNum → List (List Char)

/-- The default implementation wired by the engine configuration. -/
def defaultFontMetricsM : FontMetricsM :=
  ⟨DefaultFontMetrics.measureText, DefaultFontMetrics.getLineHeight,
    DefaultFontMetrics.breakLines⟩

/-- text-calculator.ts `TextCalculator.calculateTextWidth`:
`Math.max(...lines.map(measureText))`, guarded to 0 for an empty list. -/
def calculateTextWidth (fm : FontMetricsM) (lines : List (List Char))
    (fontSize : ℚ) : ℚ :=
  match lines with
  | [] => 0
  | l :: ls => (ls.map (fm.measureText · fontSize)).foldl max (fm.measureText l fontSize)

/-- text-calculator.ts `TextCalculator.calculate`.  `context` is passed as
the font metrics plus the default font size; the text calculator never uses
`layoutChild`. -/
def textCalculate (fm : FontMetricsM) (defaultFontSize : ℚ)
    (props : TextProps) (c : Constraints) : LayoutBox :=
  let fontSize := (props.style.bind TextStyle.fontSize).getD defaultFontSize
  match props.width, props.height with
  | some w, some h =>
    ⟨0, 0, constrainWidth (w : ℚ) c, constrainHeight (h : ℚ) c, none⟩
  | ow, oh =>
    let maxWidth : JNum := (ow.map fun w => ((w : ℚ) : JNum)).getD c.maxWidth
    let lines := fm.breakLines props.content fontSize maxWidth
    let lineHeight := fm.getLineHeight fontSize
    let width : JNum :=
      (ow.map fun w => ((w : ℚ) : JNum)).getD
        ((calculateTextWidth fm lines fontSize : ℚ) : JNum)
    let height : JNum :=
      (oh.map fun h => ((h : ℚ) : JNum)).getD
        (((lines.length : ℚ) * lineHeight : ℚ) : JNum)
    ⟨0, 0, constrainWidth width c, constrainHeight height c, none⟩

/-- The running total of the stack calculators' child loops: child
dimensions are summed with `spacing` added after every child but the
last. -/
def sumWithSpacing (spacing : ℚ) : List JNum → JNum
  | [] => 0
  | [h] => h
  | h :: hs => h + (spacing : JNum) + sumWithSpacing spacing hs

/-- The running maximum of the stack and box calculators' child loops
(`Math.max` folded from an initial 0). -/
def foldMaxZero (l : List JNum) : JNum :=
  l.foldl max 0

/-- The child constraints a `VStackCalculator` hands to every child
(stack-calculator.ts lines 28–33): the horizontal budget minus horizontal
padding, floored at 0, with unconstrained height. -/
def vstackChildConstraints (props : StackProps) (c : Constraints) :
    Constraints :=
  let padding := resolvePadding props.padding
  let horizontalPadding := getHorizontalPadding padding
  ⟨max 0 (c.minWidth - horizontalPadding),
    max 0 (jsub c.maxWidth horizontalPadding),
    0, ⊤⟩

/-- The tail of `VStackCalculator.calculate` once all child boxes are
available: aggregate child sizes, apply explicit dimensions, add padding
and clamp. -/
def vstackFinish (props : StackProps) (c : Constraints)
    (childBoxes : List LayoutBox) : LayoutBox :=
  let spacing := props.spacing.getD 0
  let padding := resolvePadding props.padding
  let horizontalPadding := getHorizontalPadding padding
  let verticalPadding := getVerticalPadding padding
  let maxChildWidth := foldMaxZero (childBoxes.map LayoutBox.width)
  let totalHeight := sumWithSpacing spacing (childBoxes.map LayoutBox.height)
  let contentWidth := (props.width.map fun w => ((w : ℚ) : JNum)).getD maxChildWidth
  let contentHeight := (props.height.map fun h => ((h : ℚ) : JNum)).getD totalHeight
  ⟨0, 0,
    constrainWidth (contentWidth + (horizontalPadding : JNum)) c,
    constrainHeight (contentHeight + (verticalPadding : JNum)) c,
    padding⟩

/-- stack-calculator.ts `VStackCalculator.calculate`, for an arbitrary
context closure `layoutChild`. -/
def vstackCalculate (layoutChild : Node → Constraints → LayoutBox)
    (props : StackProps) (children : List Node) (c : Constraints) :
    LayoutBox :=
  vstackFinish props c
    (children.map fun child => layoutChild child (vstackChildConstraints props c))

/-- The child constraints an `HStackCalculator` hands to every child
(stack-calculator.ts lines 94–111): an even share of the available width
(the parent's `maxWidth` minus horizontal padding, floored at 0, minus
total inter-child spacing `Math.max(0, (n-1)*spacing)`, divided by the
child count), zero `minWidth`, and the vertical budget minus vertical
padding, floored at 0. -/
def hstackChildConstraints (props : StackProps) (children : List Node)
    (c : Constraints) : Constraints :=
  let spacing := props.spacing.getD 0
  let padding := resolvePadding props.padding
  let horizontalPadding := getHorizontalPadding padding
  let verticalPadding := getVerticalPadding padding
  let availableWidth := max 0 (jsub c.maxWidth horizontalPadding)
  let totalSpacing : ℚ := max 0 (((children.length : ℚ) - 1) * spacing)
  let childMaxWidth :=
    if 0 < children.length then
      jdivNat (jsub availableWidth totalSpacing) children.length
    else availableWidth
  ⟨0, childMaxWidth,
    max 0 (c.minHeight - verticalPadding),
    max 0 (jsub c.maxHeight verticalPadding)⟩

/-- The tail of `HStackCalculator.calculate` once all child boxes are
available. -/
def hstackFinish (props : StackProps) (c : Constraints)
    (childBoxes : List LayoutBox) : LayoutBox :=
  let spacing := props.spacing.getD 0
  let padding := resolvePadding props.padding
  let horizontalPadding := getHorizontalPadding padding
  let verticalPadding := getVerticalPadding padding
  let totalWidth := sumWithSpacing spacing (childBoxes.map LayoutBox.width)
  let maxChildHeight := foldMaxZero (childBoxes.map LayoutBox.height)
  let contentWidth := (props.width.map fun w => ((w : ℚ) : JNum)).getD totalWidth
  let contentHeight := (props.height.map fun h => ((h : ℚ) : JNum)).getD maxChildHeight
  ⟨0, 0,
    constrainWidth (contentWidth + (horizontalPadding : JNum)) c,
    constrainHeight (contentHeight + (verticalPadding : JNum)) c,
    padding⟩

/-- stack-calculator.ts `HStackCalculator.calculate`, for an arbitrary
context closure `layoutChild`. -/
def hstackCalculate (layoutChild : Node → Constraints → LayoutBox)
    (props : StackProps) (children : List Node) (c : Constraints) :
    LayoutBox :=
  hstackFinish props c
    (children.map fun child =>
      layoutChild child (hstackChildConstraints props children c))

/-- divider-calculator.ts `DividerCalculator.calculate`. -/
def dividerCalculate (props : DividerProps) (c : Constraints) : LayoutBox :=
  let orientation := props.orientation.getD .horizontal
  let thickness := props.thickness.getD 1
  let width : JNum :=
    if orientation = .horizontal then
      (props.length.map fun l => ((l : ℚ) : JNum)).getD c.maxWidth
    else (thickness : JNum)
  let height : JNum :=
    if orientation = .horizontal then (thickness : JNum)
    else (props.length.map fun l => ((l : ℚ) : JNum)).getD c.maxHeight
  ⟨0, 0, constrainWidth width c, constrainHeight height c, none⟩

/-- spacer-calculator.ts `SpacerCalculator.calculate`. -/
def spacerCalculate (props : SpacerProps) (c : Constraints) : LayoutBox :=
  let flexActive : Bool := match props.flex with
    | some f => decide (0 < f)
    | none => false
  let width : JNum :=
    if flexActive then (props.width.map fun w => ((w : ℚ) : JNum)).getD c.maxWidth
    else ((props.width.getD 0 : ℚ) : JNum)
  let height : JNum :=
    if flexActive then (props.height.map fun h => ((h : ℚ) : JNum)).getD c.maxHeight
    else ((props.height.getD 0 : ℚ) : JNum)
  ⟨0, 0, constrainWidth width c, constrainHeight height c, none⟩

/-- The child constraints a `BoxCalculator` hands to every child
(box-calculator.ts lines 34–39): all four bounds shrunk by padding plus
two-sided border, floored at 0. -/
def boxChildConstraints (props : BoxProps) (c : Constraints) : Constraints :=
  let padding := resolvePadding props.padding
  let borderWidth := (props.border.bind BorderStyle.width).getD 0
  let totalBorderSpace := borderWidth * 2
  let totalHorizontalSpace := getHorizontalPadding padding + totalBorderSpace
  let totalVerticalSpace := getVerticalPadding padding + totalBorderSpace
  ⟨max 0 (c.minWidth - totalHorizontalSpace),
    max 0 (jsub c.maxWidth totalHorizontalSpace),
    max 0 (c.minHeight - totalVerticalSpace),
    max 0 (jsub c.maxHeight totalVerticalSpace)⟩

/-- The tail of `BoxCalculator.calculate` once all child boxes are
available: track the maximum child extents, then use explicit dimensions
as the total size or size to content plus padding plus border, clamped. -/
def boxFinish (props : BoxProps) (c : Constraints)
    (childBoxes : List LayoutBox) : LayoutBox :=
  let padding := resolvePadding props.padding
  let borderWidth := (props.border.bind BorderStyle.width).getD 0
  let totalBorderSpace := borderWidth * 2
  let totalHorizontalSpace := getHorizontalPadding padding + totalBorderSpace
  let totalVerticalSpace := getVerticalPadding padding + totalBorderSpace
  let maxChildWidth := foldMaxZero (childBoxes.map LayoutBox.width)
  let maxChildHeight := foldMaxZero (childBoxes.map LayoutBox.height)
  let width := match props.width with
    | some w => constrainWidth ((w : ℚ) : JNum) c
    | none => constrainWidth (maxChildWidth + ((totalHorizontalSpace : ℚ) : JNum)) c
  let height := match props.height with
    | some h => constrainHeight ((h : ℚ) : JNum) c
    | none => constrainHeight (maxChildHeight + ((totalVerticalSpace : ℚ) : JNum)) c
  ⟨0, 0, width, height, padding⟩

/-- box-calculator.ts `BoxCalculator.calculate`, for an arbitrary context
closure `layoutChild`. -/
def boxCalculate (layoutChild : Node → Constraints → LayoutBox)
    (props : BoxProps) (children : List Node) (c : Constraints) :
    LayoutBox :=
  boxFinish props c
    (children.map fun child => layoutChild child (boxChildConstraints props c))

/-- The engine's calculator dispatch (the `Map` built in the `LayoutEngine`
constructor followed by `calculator.calculate`), as a pure function over an
arbitrary context: `none` when no calculator is registered for the node's
tag. -/
def dispatchCalculate (fm : FontMetricsM) (defaultFontSize : ℚ)
    (layoutChild : Node → Constraints → LayoutBox) :
    Node → Constraints → Option LayoutBox
  | .text p, c => some (textCalculate fm defaultFontSize p c)
  | .vStack p ch, c => some (vstackCalculate layoutChild p ch c)
  | .hStack p ch, c => some (hstackCalculate layoutChild p ch c)
  | .divider p, c => some (dividerCalculate p c)
  | .spacer p, c => some (spacerCalculate p c)
  | .box p ch, c => some (boxCalculate layoutChild p ch c)
  | .unknown _, _ => none

mutual

/-- `LayoutEngine.layoutNode` (spacer-calculator.ts part 2, lines
137–149): dispatch on `node.type` through the calculator registry — the
container calculators recurse into their children through the context's
`layoutChild`, which is this very function — and throw for a tag with no
registered calculator. -/
def layoutNode (fm : FontMetricsM) (defaultFontSize : ℚ) :
    Node → Constraints → Except String LayoutBox
  | .text p, c => .ok (textCalculate fm defaultFontSize p c)
  | .vStack p ch, c =>
    match layoutNodeList fm defaultFontSize ch (vstackChildConstraints p c) with
    | .error e => .error e
    | .ok bs => .ok (vstackFinish p c bs)
  | .hStack p ch, c =>
    match layoutNodeList fm defaultFontSize ch (hstackChildConstraints p ch c) with
    | .error e => .error e
    | .ok bs => .ok (hstackFinish p c bs)
  | .divider p, c => .ok (dividerCalculate p c)
  | .spacer p, c => .ok (spacerCalculate p c)
  | .box p ch, c =>
    match layoutNodeList fm defaultFontSize ch (boxChildConstraints p c) with
    | .error e => .error e
    | .ok bs => .ok (boxFinish p c bs)
  | .unknown tag, _ =>
    .error ("No calculator registered for node type: " ++ tag)

/-- The container calculators' `for (const child of node.children)` loop:
every child is laid out against the same child constraints, and a thrown
error aborts the pass. -/
def layoutNodeList (fm : FontMetricsM) (defaultFontSize : ℚ) :
    List Node → Constraints → Except String (List LayoutBox)
  | [], _ => .ok []
  | n :: ns, c =>
    match layoutNode fm defaultFontSize n c with
    | .error e => .error e
    | .ok b =>
      match layoutNodeList fm defaultFontSize ns c with
      | .error e => .error e
      | .ok bs => .ok (b :: bs)

end

mutual

/-- The number of `calculator.calculate` invocations a single call
`LayoutEngine.layoutNode(node, …)` triggers: one for the dispatched node
itself plus — because the stack and box calculators call
`context.layoutChild` (which is `layoutNode`) on each child inside
`calculate` — the invocations of the whole measuring recursion below it.
An unknown tag throws before any calculator runs. -/
def layoutNodeCalcCount : Node → ℕ
  | .text _ => 1
  | .divider _ => 1
  | .spacer _ => 1
  | .vStack _ ch => 1 + layoutNodeCalcCountList ch
  | .hStack _ ch => 1 + layoutNodeCalcCountList ch
  | .box _ ch => 1 + layoutNodeCalcCountList ch
  | .unknown _ => 0

/-- List form of `layoutNodeCalcCount`. -/
def layoutNodeCalcCountList : List Node → ℕ
  | [] => 0
  | n :: ns => layoutNodeCalcCount n + layoutNodeCalcCountList ns

end

mutual

/-- The number of `calculator.calculate` invocations one full pass
`LayoutEngine.layoutNodeWithChildren(node, …)` triggers (spacer-calculator.ts
part 2, lines 154–247): it first calls `layoutNode(node, …)` — the whole
measuring recursion over the subtree — and then, when the node has a
`children` array, `layoutChildren`, which calls `layoutNodeWithChildren`
again on every child. -/
def layoutPassCalcCount : Node → ℕ
  | .text p => layoutNodeCalcCount (.text p)
  | .divider p => layoutNodeCalcCount (.divider p)
  | .spacer p => layoutNodeCalcCount (.spacer p)
  | .vStack p ch => layoutNodeCalcCount (.vStack p ch) + layoutPassCalcCountList ch
  | .hStack p ch => layoutNodeCalcCount (.hStack p ch) + layoutPassCalcCountList ch
  | .box p ch => layoutNodeCalcCount (.box p ch) + layoutPassCalcCountList ch
  | .unknown tag => layoutNodeCalcCount (.unknown tag)

/-- List form of `layoutPassCalcCount` (the `layoutChildren` loop). -/
def layoutPassCalcCountList : List Node → ℕ
  | [] => 0
  | n :: ns => layoutPassCalcCount n + layoutPassCalcCountList ns

end

mutual

/-- The depth-weighted visit count `Σ (depth(v) + 1)` over the subtree of a
node placed at depth `d`: the closed-form total of calculator invocations
the amended claim C2 states. -/
def depthWeightedVisits : Node → ℕ → ℕ
  | .text _, d => d + 1
  | .divider _, d => d + 1
  | .spacer _, d => d + 1
  | .vStack _ ch, d => (d + 1) + depthWeightedVisitsList ch (d + 1)
  | .hStack _ ch, d => (d + 1) + depthWeightedVisitsList ch (d + 1)
  | .box _ ch, d => (d + 1) + depthWeightedVisitsList ch (d + 1)
  | .unknown _, _ => 0

/-- List form of `depthWeightedVisits`. -/
def depthWeightedVisitsList : List Node → ℕ → ℕ
  | [], _ => 0
  | n :: ns, d => depthWeightedVisits n d + depthWeightedVisitsList ns d

end

/-- box-model.ts `ContentBox`. -/
structure ContentBox where
  x : JNum
  y : JNum
  width : JNum
  height : JNum
deriving DecidableEq

/-- box-model.ts `getContentBox` (lines 47–56): inner origin is the box
origin shifted by the left/top padding; inner width and height are the box
dimensions minus the respective paddings, with no flooring.  A missing
padding defaults to all-zero edges (`box.padding || {…0…}`). -/
def getContentBox (box : LayoutBox) : ContentBox :=
  let padding := box.padding.getD ⟨0, 0, 0, 0⟩
  ⟨box.x + ((padding.left : ℚ) : JNum),
    box.y + ((padding.top : ℚ) : JNum),
    jsub (jsub box.width padding.left) padding.right,
    jsub (jsub box.height padding.top) padding.bottom⟩

/-- core/types (part_006) `contentWidth`: the width minus horizontal
padding, floored at 0 — unlike `getContentBox`. -/
def contentWidth (box : LayoutBox) : JNum :=
  match box.padding with
  | none => box.width
  | some p => max 0 (jsub (jsub box.width p.left) p.right)

/-- core/types (part_006) `contentHeight`: floored at 0 likewise. -/
def contentHeight (box : LayoutBox) : JNum :=
  match box.padding with
  | none => box.height
  | some p => max 0 (jsub (jsub box.height p.top) p.bottom)

/-- core/types `LayoutNode`: an AST node paired with its computed box and,
for containers, its laid-out children. -/
inductive LayoutNode where
  | mk (node : Node) (box : LayoutBox) (children : Option (List LayoutNode))

/-- render-backend.ts `TextStyle` (the command-level one). -/
structure RenderTextStyle where
  fontSize : Option ℚ
  fontWeight : Option FontWeight
  fontStyle : Option FontStyle
  color : Option String
  lineHeight : Option ℚ
deriving DecidableEq

/-- render-backend.ts `RectStyle`. -/
structure RectStyle where
  fillColor : Option String
  strokeColor : Option String
  strokeWidth : Option ℚ
  borderRadius : Option ℚ
deriving DecidableEq

/-- render-backend.ts `LineStyle`. -/
structure LineStyle where
  width : Option ℚ
  color : Option String
  dashPattern : Option (List ℚ)
deriving DecidableEq

/-- The render commands `generateCommands` can emit (`TextCommand`,
`RectCommand`, `LineCommand`, each a data record with its constructor
arguments). -/
inductive RenderCommand where
  | textCmd (content : List Char) (x y : JNum) (style : RenderTextStyle)
  | rectCmd (x y width height : JNum) (style : RectStyle)
  | lineCmd (x1 y1 x2 y2 : JNum) (style : LineStyle)
deriving DecidableEq

/-- `Renderer.renderText` (part_016 lines 123–147): nothing for a falsy
(empty) content string, otherwise one `TextCommand` at the box origin
carrying the node style's font size, weight, style and color. -/
def renderText (props : TextProps) (box : LayoutBox) : List RenderCommand :=
  if props.content = [] then []
  else
    [.textCmd props.content box.x box.y
      ⟨props.style.bind TextStyle.fontSize,
        props.style.bind TextStyle.fontWeight,
        props.style.bind TextStyle.fontStyle,
        props.style.bind TextStyle.color,
        none⟩]

/-- `Renderer.renderDivider`: one `LineCommand` with endpoints derived from
the orientation and a dash pattern derived from the named line style. -/
def renderDivider (props : DividerProps) (box : LayoutBox) :
    List RenderCommand :=
  let orientation := props.orientation.getD .horizontal
  let thickness := props.thickness.getD 1
  let color := props.color.getD "#000000"
  let x2 := if orientation = .horizontal then box.x + box.width else box.x
  let y2 := if orientation = .vertical then box.y + box.height else box.y
  let dashPattern : Option (List ℚ) :=
    match props.style with
    | some .dashed => some [5, 3]
    | some .dotted => some [1, 2]
    | _ => none
  [.lineCmd box.x box.y x2 y2 ⟨some thickness, some color, dashPattern⟩]

/-- JavaScript truthiness of an optional string (`undefined` and `''` are
falsy). -/
def strTruthy : Option String → Bool
  | none => false
  | some s => s ≠ ""

/-- The background/border rectangle of `Renderer.renderBox`, emitted only
when `props.backgroundColor || props.border` is truthy. -/
def renderBoxRect (props : BoxProps) (box : LayoutBox) :
    List RenderCommand :=
  if strTruthy props.backgroundColor || props.border.isSome then
    [.rectCmd box.x box.y box.width box.height
      ⟨props.backgroundColor,
        props.border.bind BorderStyle.color,
        props.border.bind BorderStyle.width,
        props.border.bind BorderStyle.radius⟩]
  else []

/-- The debug outline `generateCommands` prepends when `debugLayout` is
set. -/
def debugOutline (debugLayout : Bool) (box : LayoutBox) :
    List RenderCommand :=
  if debugLayout then
    [.rectCmd box.x box.y box.width box.height
      ⟨none, some "#cccccc", some (1 / 2), none⟩]
  else []

mutual

/-- `Renderer.generateCommands` (part_016 lines 61–106): optional debug
outline first, then dispatch on the node's tag — text and divider emit
their own command, box emits its optional rectangle followed by its
children's commands, stacks just concatenate their children's commands,
spacers and unknown tags (a logged warning in the source) emit nothing. -/
def generateCommands (debugLayout : Bool) : LayoutNode → List RenderCommand
  | .mk node box children =>
    debugOutline debugLayout box ++
      match node with
      | .text p => renderText p box
      | .box p _ =>
        renderBoxRect p box ++
          match children with
          | some cs => generateCommandsList debugLayout cs
          | none => []
      | .divider p => renderDivider p box
      | .vStack _ _ =>
        match children with
        | some cs => generateCommandsList debugLayout cs
        | none => []
      | .hStack _ _ =>
        match children with
        | some cs => generateCommandsList debugLayout cs
        | none => []
      | .spacer _ => []
      | .unknown _ => []

/-- The child loops of `renderBox` and `renderStack`. -/
def generateCommandsList (debugLayout : Bool) :
    List LayoutNode → List RenderCommand
  | [] => []
  | ln :: lns =>
    generateCommands debugLayout ln ++ generateCommandsList debugLayout lns

end

/-- A trivial context closure (an arbitrary `layoutChild` for witnesses). -/
def lcZero : Node → Constraints → LayoutBox := fun _ _ => ⟨0, 0, 0, 0, none⟩

/-- Stack props with every option left `undefined`. -/
def stackPropsNone : StackProps := ⟨none, none, none, none, none⟩

/-- A text node with content `"hi"` and no explicit styling or size. -/
def textPropsHi : TextProps := ⟨['h', 'i'], none, none, none⟩

/-- The three-node chain `vStack [vStack [text "hi"]]` used to count
calculator invocations. -/
def exNested : Node :=
  .vStack stackPropsNone [.vStack stackPropsNone [.text textPropsHi]]

/-- Constraints `{0, 100, 5, 100}`: a positive `minHeight`. -/
def cMinHeight5 : Constraints := ⟨0, ((100 : ℚ) : JNum), 5, ((100 : ℚ) : JNum)⟩

/-- Constraints `{0, 100, 0, 200}`. -/
def cSimple : Constraints := ⟨0, ((100 : ℚ) : JNum), 0, ((200 : ℚ) : JNum)⟩

/-- A divider node with all-default props. -/
def exDividerNode : Node := .divider ⟨none, none, none, none, none⟩

/-- A 10×10 box carrying uniform padding 10 on every edge. -/
def boxPadded10 : LayoutBox :=
  ⟨0, 0, ((10 : ℚ) : JNum), ((10 : ℚ) : JNum), some ⟨10, 10, 10, 10⟩⟩

/-- A 50×20 box at the origin with no padding. -/
def boxPlain : LayoutBox := ⟨0, 0, ((50 : ℚ) : JNum), ((20 : ℚ) : JNum), none⟩

/-- A laid-out text node whose content is the empty string. -/
def exEmptyTextLayout : LayoutNode := .mk (.text ⟨[], none, none, none⟩) boxPlain none

/-- The box the divider calculator produces for `exDividerNode` under
`cSimple`. -/
def bDivider : LayoutBox := ⟨0, 0, ((100 : ℚ) : JNum), ((1 : ℚ) : JNum), none⟩

/-! ### Helper lemmas -/

theorem constrainWidth_bounds (c : Constraints) (hm : 0 ≤ c.minWidth)
    (hM : (c.minWidth : JNum) ≤ c.maxWidth) (w : JNum) :
    (0 : JNum) ≤ constrainWidth w c ∧
      (c.minWidth : JNum) ≤ constrainWidth w c ∧
      constrainWidth w c ≤ c.maxWidth := by
  refine ⟨?_, le_max_left _ _, max_le hM (min_le_right _ _)⟩
  exact le_trans (by exact_mod_cast hm) (le_max_left _ _)

theorem constrainHeight_bounds (c : Constraints) (hm : 0 ≤ c.minHeight)
    (hM : (c.minHeight : JNum) ≤ c.maxHeight) (h : JNum) :
    (0 : JNum) ≤ constrainHeight h c ∧
      (c.minHeight : JNum) ≤ constrainHeight h c ∧
      constrainHeight h c ≤ c.maxHeight := by
  refine ⟨?_, le_max_left _ _, max_le hM (min_le_right _ _)⟩
  exact le_trans (by exact_mod_cast hm) (le_max_left _ _)

/-! ### C1 -/

/-- C1: for every calculator (text, vStack, hStack, divider, spacer, box),
every context, and every constraints value with non-negative minima and
`min ≤ max` on each axis, the returned box's width lies in
`[minWidth, maxWidth]` and its height in `[minHeight, maxHeight]`; in
particular neither is ever negative. -/
theorem c1_calculators_respect_constraints
    (fm : FontMetricsM) (defaultFontSize : ℚ)
    (lc : Node → Constraints → LayoutBox) (n : Node) (c : Constraints)
    (b : LayoutBox)
    (hmw : 0 ≤ c.minWidth) (hW : (c.minWidth : JNum) ≤ c.maxWidth)
    (hmh : 0 ≤ c.minHeight) (hH : (c.minHeight : JNum) ≤ c.maxHeight)
    (hb : dispatchCalculate fm defaultFontSize lc n c = some b) :
    ((0 : JNum) ≤ b.width ∧ (c.minWidth : JNum) ≤ b.width ∧
      b.width ≤ c.maxWidth) ∧
    ((0 : JNum) ≤ b.height ∧ (c.minHeight : JNum) ≤ b.height ∧
      b.height ≤ c.maxHeight) := by
  have WB := constrainWidth_bounds c hmw hW
  have HB := constrainHeight_bounds c hmh hH
  cases n with
  | text p =>
    simp only [dispatchCalculate, Option.some.injEq] at hb
    subst hb
    rcases hw : p.width with _ | w <;> rcases hh : p.height with _ | h <;>
      simp only [textCalculate, hw, hh] <;> exact ⟨WB _, HB _⟩
  | vStack p ch =>
    simp only [dispatchCalculate, Option.some.injEq] at hb
    subst hb
    exact ⟨WB _, HB _⟩
  | hStack p ch =>
    simp only [dispatchCalculate, Option.some.injEq] at hb
    subst hb
    exact ⟨WB _, HB _⟩
  | divider p =>
    simp only [dispatchCalculate, Option.some.injEq] at hb
    subst hb
    exact ⟨WB _, HB _⟩
  | spacer p =>
    simp only [dispatchCalculate, Option.some.injEq] at hb
    subst hb
    exact ⟨WB _, HB _⟩
  | box p ch =>
    simp only [dispatchCalculate, Option.some.injEq] at hb
    subst hb
    rcases hw : p.width with _ | w <;> rcases hh : p.height with _ | h <;>
      simp only [boxCalculate, boxFinish, hw, hh] <;> exact ⟨WB _, HB _⟩
  | unknown tag => simp [dispatchCalculate] at hb

/-- C1 witness: the divider calculator under `{0,100,0,200}`. -/
theorem c1_witness :
    0 ≤ cSimple.minWidth ∧ (cSimple.minWidth : JNum) ≤ cSimple.maxWidth ∧
    0 ≤ cSimple.minHeight ∧ (cSimple.minHeight : JNum) ≤ cSimple.maxHeight ∧
    dispatchCalculate defaultFontMetricsM 12 lcZero exDividerNode cSimple =
      some bDivider ∧
    (((0 : JNum) ≤ bDivider.width ∧
        (cSimple.minWidth : JNum) ≤ bDivider.width ∧
        bDivider.width ≤ cSimple.maxWidth) ∧
      ((0 : JNum) ≤ bDivider.height ∧
        (cSimple.minHeight : JNum) ≤ bDivider.height ∧
        bDivider.height ≤ cSimple.maxHeight)) := by
  have h1 : 0 ≤ cSimple.minWidth := by norm_num [cSimple]
  have h2 : (cSimple.minWidth : JNum) ≤ cSimple.maxWidth := by decide
  have h3 : 0 ≤ cSimple.minHeight := by norm_num [cSimple]
  have h4 : (cSimple.minHeight : JNum) ≤ cSimple.maxHeight := by decide
  have h5 : dispatchCalculate defaultFontMetricsM 12 lcZero exDividerNode
      cSimple = some bDivider := by decide
  exact ⟨h1, h2, h3, h4, h5,
    c1_calculators_respect_constraints defaultFontMetricsM 12 lcZero
      exDividerNode cSimple bDivider h1 h2 h3 h4 h5⟩

/-! ### C2 -/

mutual

/-- The measuring pass alone visits each node of a well-formed subtree
exactly once. -/
theorem calcCount_eq_countNodes :
    ∀ n : Node, wellFormed n = true → layoutNodeCalcCount n = countNodes n
  | .text _, _ => rfl
  | .divider _, _ => rfl
  | .spacer _, _ => rfl
  | .vStack p ch, h => by
    have hl := calcCountList_eq_countNodesList ch (by simpa [wellFormed] using h)
    simp [layoutNodeCalcCount, countNodes, hl]
  | .hStack p ch, h => by
    have hl := calcCountList_eq_countNodesList ch (by simpa [wellFormed] using h)
    simp [layoutNodeCalcCount, countNodes, hl]
  | .box p ch, h => by
    have hl := calcCountList_eq_countNodesList ch (by simpa [wellFormed] using h)
    simp [layoutNodeCalcCount, countNodes, hl]
  | .unknown _, h => by simp [wellFormed] at h

/-- List form of `calcCount_eq_countNodes`. -/
theorem calcCountList_eq_countNodesList :
    ∀ ns : List Node, wellFormedList ns = true →
      layoutNodeCalcCountList ns = countNodesList ns
  | [], _ => rfl
  | n :: ns, h => by
    rw [wellFormedList, Bool.and_eq_true] at h
    simp [layoutNodeCalcCountList, countNodesList,
      calcCount_eq_countNodes n h.1, calcCountList_eq_countNodesList ns h.2]

end

mutual

/-- The depth-weighted visit total relates to the full-pass invocation
count: for a well-formed node placed at depth `d`,
`Σ (depth+1) = passCount + d·nodeCount`. -/
theorem depthWeighted_eq_passCount :
    ∀ (n : Node) (d : ℕ), wellFormed n = true →
      depthWeightedVisits n d = layoutPassCalcCount n + d * countNodes n
  | .text _, d, _ => by
    simp only [depthWeightedVisits, layoutPassCalcCount, layoutNodeCalcCount,
      countNodes]
    ring
  | .divider _, d, _ => by
    simp only [depthWeightedVisits, layoutPassCalcCount, layoutNodeCalcCount,
      countNodes]
    ring
  | .spacer _, d, _ => by
    simp only [depthWeightedVisits, layoutPassCalcCount, layoutNodeCalcCount,
      countNodes]
    ring
  | .vStack p ch, d, h => by
    have hwf : wellFormedList ch = true := by simpa [wellFormed] using h
    have hl := depthWeightedList_eq_passCountList ch (d + 1) hwf
    have hc := calcCountList_eq_countNodesList ch hwf
    simp only [depthWeightedVisits, layoutPassCalcCount, layoutNodeCalcCount,
      countNodes, hl, hc]
    ring
  | .hStack p ch, d, h => by
    have hwf : wellFormedList ch = true := by simpa [wellFormed] using h
    have hl := depthWeightedList_eq_passCountList ch (d + 1) hwf
    have hc := calcCountList_eq_countNodesList ch hwf
    simp only [depthWeightedVisits, layoutPassCalcCount, layoutNodeCalcCount,
      countNodes, hl, hc]
    ring
  | .box p ch, d, h => by
    have hwf : wellFormedList ch = true := by simpa [wellFormed] using h
    have hl := depthWeightedList_eq_passCountList ch (d + 1) hwf
    have hc := calcCountList_eq_countNodesList ch hwf
    simp only [depthWeightedVisits, layoutPassCalcCount, layoutNodeCalcCount,
      countNodes, hl, hc]
    ring
  | .unknown _, d, h => by simp [wellFormed] at h

/-- List form of `depthWeighted_eq_passCount`. -/
theorem depthWeightedList_eq_passCountList :
    ∀ (ns : List Node) (d : ℕ), wellFormedList ns = true →
      depthWeightedVisitsList ns d =
        layoutPassCalcCountList ns + d * countNodesList ns
  | [], _, _ => by
    simp [depthWeightedVisitsList, layoutPassCalcCountList, countNodesList]
  | n :: ns, d, h => by
    rw [wellFormedList, Bool.and_eq_true] at h
    have h1 := depthWeighted_eq_passCount n d h.1
    have h2 := depthWeightedList_eq_passCountList ns d h.2
    simp only [depthWeightedVisitsList, layoutPassCalcCountList,
      countNodesList, h1, h2]
    ring

end

/-- C2 (amended): in one `layout` pass over a well-formed tree, the
measuring recursion `layoutNode` invokes each node's calculator exactly
once per subtree it is contained in, so the full pass
`layoutNodeWithChildren` — which runs the measuring recursion and then
recurses itself through `layoutChildren` — performs
`Σ over nodes v of (depth(v) + 1)` calculator invocations in total (each
node is visited once for itself and once more inside the measuring pass of
each proper ancestor), not one invocation per node; the recursion depth
does remain proportional to the tree depth. -/
theorem c2_amended_visit_counts (n : Node) (h : wellFormed n = true) :
    layoutNodeCalcCount n = countNodes n ∧
    layoutPassCalcCount n = depthWeightedVisits n 0 := by
  refine ⟨calcCount_eq_countNodes n h, ?_⟩
  have := depthWeighted_eq_passCount n 0 h
  omega

/-- C2 counterexample: on the three-node chain `vStack [vStack [text]]`
the full layout pass invokes calculators six times — `6 = Σ (depth+1) =
1 + 2 + 3` — while the tree has three nodes, refuting "the calculator for
a node is invoked exactly once per node". -/
theorem c2_counterexample :
    layoutPassCalcCount exNested = 6 ∧ countNodes exNested = 3 ∧
      layoutPassCalcCount exNested ≠ countNodes exNested := by
  refine ⟨?_, ?_, ?_⟩ <;>
    simp [exNested, layoutPassCalcCount, layoutPassCalcCountList,
      layoutNodeCalcCount, layoutNodeCalcCountList, countNodes, countNodesList]

/-- C2 witness: the amended count equalities evaluated on the same
three-node chain. -/
theorem c2_witness :
    wellFormed exNested = true ∧
      (layoutNodeCalcCount exNested = countNodes exNested ∧
        layoutPassCalcCount exNested = depthWeightedVisits exNested 0) := by
  have h : wellFormed exNested = true := by
    simp [exNested, wellFormed, wellFormedList]
  exact ⟨h, c2_amended_visit_counts exNested h⟩

/-! ### C3 -/

/-- The default metric is monotone in text length when the font size is
non-negative. -/
theorem measureText_mono (fontSize : ℚ) (hfs : 0 ≤ fontSize)
    (t1 t2 : List Char) (hlen : t1.length ≤ t2.length) :
    DefaultFontMetrics.measureText t1 fontSize ≤
      DefaultFontMetrics.measureText t2 fontSize := by
  unfold DefaultFontMetrics.measureText DefaultFontMetrics.avgCharWidthFactor
  have h1 : (t1.length : ℚ) ≤ (t2.length : ℚ) := by exact_mod_cast hlen
  have h2 : (t1.length : ℚ) * fontSize ≤ (t2.length : ℚ) * fontSize :=
    mul_le_mul_of_nonneg_right h1 hfs
  nlinarith

/-- One loop step never removes an already flushed line. -/
theorem breakLinesStep_lines_mono (fontSize : ℚ) (maxWidth : JNum)
    (st : List (List Char) × List Char) (word x : List Char)
    (hx : x ∈ st.1) :
    x ∈ (DefaultFontMetrics.breakLinesStep fontSize maxWidth st word).1 := by
  obtain ⟨lines, cur⟩ := st
  cases cur with
  | nil =>
    simp only [DefaultFontMetrics.breakLinesStep, ne_eq, not_true_eq_false,
      if_false, ite_false]
    split
    · exact hx
    · split
      · exact List.mem_append_left _ hx
      · exact hx
  | cons c cs =>
    simp only [DefaultFontMetrics.breakLinesStep, ne_eq, reduceCtorEq,
      not_false_eq_true, if_true, ite_true]
    split
    · exact hx
    · split
      · exact List.mem_append_left _ (List.mem_append_left _ hx)
      · exact List.mem_append_left _ hx

/-- The whole loop never removes an already flushed line. -/
theorem breakLines_foldl_lines_mono (fontSize : ℚ) (maxWidth : JNum) :
    ∀ (ws : List (List Char)) (st : List (List Char) × List Char)
      (x : List Char), x ∈ st.1 →
      x ∈ (ws.foldl (DefaultFontMetrics.breakLinesStep fontSize maxWidth) st).1
  | [], _, _, hx => hx
  | w :: ws, st, x, hx =>
    breakLines_foldl_lines_mono fontSize maxWidth ws _ x
      (breakLinesStep_lines_mono fontSize maxWidth st w x hx)

/-- Processing a word wider than `maxWidth` immediately flushes it as its
own line (for non-negative font sizes). -/
theorem breakLinesStep_wide_mem (fontSize : ℚ) (maxWidth : JNum)
    (hfs : 0 ≤ fontSize) (word : List Char)
    (hwide : maxWidth <
      ((DefaultFontMetrics.measureText word fontSize : ℚ) : JNum))
    (st : List (List Char) × List Char) :
    word ∈ (DefaultFontMetrics.breakLinesStep fontSize maxWidth st word).1 := by
  have hcand : ∀ t : List Char, word.length ≤ t.length →
      ¬ (((DefaultFontMetrics.measureText t fontSize : ℚ) : JNum) ≤ maxWidth) := by
    intro t hlen hle
    have h1 := measureText_mono fontSize hfs word t hlen
    have h2 : ((DefaultFontMetrics.measureText word fontSize : ℚ) : JNum) ≤
        maxWidth := le_trans (by exact_mod_cast h1) hle
    exact absurd hwide (not_lt.mpr h2)
  obtain ⟨lines, cur⟩ := st
  cases cur with
  | nil =>
    simp only [DefaultFontMetrics.breakLinesStep, ne_eq, not_true_eq_false,
      if_false, ite_false]
    rw [if_neg (hcand word le_rfl), if_pos hwide]
    exact List.mem_append_right _ (List.mem_singleton.mpr rfl)
  | cons c cs =>
    simp only [DefaultFontMetrics.breakLinesStep, ne_eq, reduceCtorEq,
      not_false_eq_true, if_true, ite_true]
    rw [if_neg (hcand ((c :: cs) ++ ' ' :: word) (by simp; omega)),
      if_pos hwide]
    exact List.mem_append_right _ (List.mem_singleton.mpr rfl)

/-- Any word of the input that is single-handedly wider than `maxWidth`
ends up among the flushed lines of the loop. -/
theorem breakLines_foldl_wide_mem (fontSize : ℚ) (maxWidth : JNum)
    (hfs : 0 ≤ fontSize) :
    ∀ (ws : List (List Char)) (st : List (List Char) × List Char)
      (w : List Char), w ∈ ws →
      maxWidth < ((DefaultFontMetrics.measureText w fontSize : ℚ) : JNum) →
      w ∈ (ws.foldl (DefaultFontMetrics.breakLinesStep fontSize maxWidth) st).1
  | [], _, _, hw, _ => absurd hw (List.not_mem_nil _)
  | v :: ws, st, w, hw, hwide => by
    rcases List.mem_cons.mp hw with h | h
    · subst h
      exact breakLines_foldl_lines_mono fontSize maxWidth ws _ w
        (breakLinesStep_wide_mem fontSize maxWidth hfs w hwide st)
    · exact breakLines_foldl_wide_mem fontSize maxWidth hfs ws _ w h hwide

/-- C3: `DefaultFontMetrics.breakLines` is total (it is a Lean function)
and implements the greedy policy: for `maxWidth = Infinity` the whole text
is one line; the loop body coincides with the spec-side greedy step
(append the word iff the candidate line's measured width is ≤ `maxWidth`,
else flush the accumulated line and start anew with the word, an over-wide
word being emitted as its own line); and every whitespace-delimited word
wider than `maxWidth` occurs verbatim among the produced lines. -/
theorem c3_breakLines_greedy (fontSize : ℚ) (maxWidth : JNum)
    (text : List Char) (hfs : 0 ≤ fontSize) :
    (maxWidth = ⊤ →
      DefaultFontMetrics.breakLines text fontSize maxWidth = [text]) ∧
    (∀ (st : List (List Char) × List Char) (word : List Char),
      DefaultFontMetrics.breakLinesStep fontSize maxWidth st word =
        greedyStepSpec fontSize maxWidth st word) ∧
    (∀ w ∈ splitWsChunks text,
      maxWidth < ((DefaultFontMetrics.measureText w fontSize : ℚ) : JNum) →
      w ∈ DefaultFontMetrics.breakLines text fontSize maxWidth) := by
  refine ⟨?_, ?_, ?_⟩
  · intro h
    simp [DefaultFontMetrics.breakLines, h]
  · intro st word
    rfl
  · intro w hw hwide
    by_cases htop : maxWidth = ⊤
    · subst htop
      exact absurd hwide (not_top_lt)
    · have hmem := breakLines_foldl_wide_mem fontSize maxWidth hfs
        (splitWsChunks text) ([], []) w hw hwide
      unfold DefaultFontMetrics.breakLines
      rw [if_neg htop]
      dsimp only
      set st := (splitWsChunks text).foldl
        (DefaultFontMetrics.breakLinesStep fontSize maxWidth) ([], []) with hst
      have hmem2 : w ∈ (if st.2 ≠ [] then st.1 ++ [st.2] else st.1) := by
        split
        · exact List.mem_append_left _ hmem
        · exact hmem
      rw [if_pos (List.length_pos.mpr (List.ne_nil_of_mem hmem2))]
      exact hmem2

/-- C3 witness: font size 10, width budget 50, text `"hi exceedingly"`
(the second word measures 84 > 50 and is emitted as its own line). -/
theorem c3_witness :
    0 ≤ (10 : ℚ) ∧
    ((((50 : ℚ) : JNum) = ⊤ →
      DefaultFontMetrics.breakLines
        ['h', 'i', ' ', 'w', 'i', 'd', 'e', 'w', 'o', 'r', 'd', 'd', 'd', 'd']
        10 ((50 : ℚ) : JNum) =
        [['h', 'i', ' ', 'w', 'i', 'd', 'e', 'w', 'o', 'r', 'd', 'd', 'd', 'd']]) ∧
    (∀ (st : List (List Char) × List Char) (word : List Char),
      DefaultFontMetrics.breakLinesStep 10 ((50 : ℚ) : JNum) st word =
        greedyStepSpec 10 ((50 : ℚ) : JNum) st word) ∧
    (∀ w ∈ splitWsChunks
        ['h', 'i', ' ', 'w', 'i', 'd', 'e', 'w', 'o', 'r', 'd', 'd', 'd', 'd'],
      ((50 : ℚ) : JNum) <
        ((DefaultFontMetrics.measureText w 10 : ℚ) : JNum) →
      w ∈ DefaultFontMetrics.breakLines
        ['h', 'i', ' ', 'w', 'i', 'd', 'e', 'w', 'o', 'r', 'd', 'd', 'd', 'd']
        10 ((50 : ℚ) : JNum))) :=
  ⟨by norm_num,
    c3_breakLines_greedy 10 ((50 : ℚ) : JNum)
      ['h', 'i', ' ', 'w', 'i', 'd', 'e', 'w', 'o', 'r', 'd', 'd', 'd', 'd']
      (by norm_num)⟩

/-! ### C4 -/

/-- C4: for every HStack node with `n > 0` children and non-negative
spacing (the DSL validators reject negative spacing), the width budget
offered to each child is the even share
`(available width − spacing·(n−1)) / n`, where the available width is the
parent's `maxWidth` minus horizontal padding floored at 0; and the budget
is computed solely from the props, the constraints and the child count,
never from any child's content. -/
theorem c4_hstack_even_share (p : StackProps) (children : List Node)
    (c : Constraints) (hn : 0 < children.length)
    (hs : 0 ≤ p.spacing.getD 0) :
    (hstackChildConstraints p children c).maxWidth =
      jdivNat
        (jsub
          (max 0 (jsub c.maxWidth (getHorizontalPadding (resolvePadding p.padding))))
          (p.spacing.getD 0 * ((children.length : ℚ) - 1)))
        children.length ∧
    ∀ ch2 : List Node, ch2.length = children.length →
      hstackChildConstraints p ch2 c = hstackChildConstraints p children c := by
  constructor
  · have h1 : (1 : ℚ) ≤ (children.length : ℚ) := by exact_mod_cast hn
    have h2 : (0 : ℚ) ≤ ((children.length : ℚ) - 1) * p.spacing.getD 0 :=
      mul_nonneg (by linarith) hs
    simp only [hstackChildConstraints, if_pos hn]
    rw [max_eq_right h2, mul_comm]
  · intro ch2 hlen
    simp only [hstackChildConstraints, hlen]

/-- C4 witness: an hStack of two dividers with spacing 10 under
`{0,100,0,200}`. -/
theorem c4_witness :
    0 < [exDividerNode, exDividerNode].length ∧
    0 ≤ (StackProps.mk (some 10) none none none none).spacing.getD 0 ∧
    ((hstackChildConstraints ⟨some 10, none, none, none, none⟩
        [exDividerNode, exDividerNode] cSimple).maxWidth =
      jdivNat
        (jsub
          (max 0 (jsub cSimple.maxWidth
            (getHorizontalPadding
              (resolvePadding (StackProps.mk (some 10) none none none none).padding))))
          ((StackProps.mk (some 10) none none none none).spacing.getD 0 *
            (([exDividerNode, exDividerNode].length : ℚ) - 1)))
        [exDividerNode, exDividerNode].length ∧
    ∀ ch2 : List Node, ch2.length = [exDividerNode, exDividerNode].length →
      hstackChildConstraints ⟨some 10, none, none, none, none⟩ ch2 cSimple =
        hstackChildConstraints ⟨some 10, none, none, none, none⟩
          [exDividerNode, exDividerNode] cSimple) :=
  ⟨by decide, by decide,
    c4_hstack_even_share ⟨some 10, none, none, none, none⟩
      [exDividerNode, exDividerNode] cSimple (by decide) (by decide)⟩

/-! ### C10 -/

/-- C10: the constraints an HStack offers one child do not depend on its
siblings' contents or resolved sizes — two child lists of equal length
yield identical child constraints (computed from the parent's constraints,
padding, spacing and child count alone), that budget has `minWidth = 0`,
and `HStackCalculator.calculate` offers exactly this same budget to every
child, so width left unused by a narrow child is never redistributed. -/
theorem c10_hstack_constraints_sibling_independent (p : StackProps)
    (c : Constraints) (lc : Node → Constraints → LayoutBox)
    (ch1 ch2 : List Node) (hlen : ch1.length = ch2.length) :
    hstackChildConstraints p ch1 c = hstackChildConstraints p ch2 c ∧
    (hstackChildConstraints p ch1 c).minWidth = 0 ∧
    hstackCalculate lc p ch1 c =
      hstackFinish p c
        (ch1.map fun child => lc child (hstackChildConstraints p ch1 c)) := by
  refine ⟨?_, rfl, rfl⟩
  simp only [hstackChildConstraints, hlen]

/-- C10 witness: a text child keeps the same offered budget whether its
sibling is a divider or a spacer. -/
theorem c10_witness :
    ([Node.text textPropsHi, exDividerNode].length =
      [Node.text textPropsHi, Node.spacer ⟨none, none, none⟩].length) ∧
    (hstackChildConstraints stackPropsNone
        [Node.text textPropsHi, exDividerNode] cSimple =
      hstackChildConstraints stackPropsNone
        [Node.text textPropsHi, Node.spacer ⟨none, none, none⟩] cSimple ∧
    (hstackChildConstraints stackPropsNone
        [Node.text textPropsHi, exDividerNode] cSimple).minWidth = 0 ∧
    hstackCalculate lcZero stackPropsNone
        [Node.text textPropsHi, exDividerNode] cSimple =
      hstackFinish stackPropsNone cSimple
        ([Node.text textPropsHi, exDividerNode].map fun child =>
          lcZero child
            (hstackChildConstraints stackPropsNone
              [Node.text textPropsHi, exDividerNode] cSimple))) :=
  ⟨rfl,
    c10_hstack_constraints_sibling_independent stackPropsNone cSimple lcZero
      [Node.text textPropsHi, exDividerNode]
      [Node.text textPropsHi, Node.spacer ⟨none, none, none⟩] rfl⟩

/-! ### C5 -/

/-- The stack calculators' running total with inter-child spacing equals
the plain sum plus `spacing × (n − 1)` (with `n − 1` the truncated natural
subtraction, so `n = 0` contributes nothing). -/
theorem sumWithSpacing_eq (s : ℚ) :
    ∀ l : List JNum,
      sumWithSpacing s l = l.sum + ((s * ((l.length - 1 : ℕ) : ℚ) : ℚ) : JNum)
  | [] => by simp [sumWithSpacing]
  | [h] => by simp [sumWithSpacing]
  | h :: h2 :: t => by
    have ih := sumWithSpacing_eq s (h2 :: t)
    simp only [sumWithSpacing] at ih ⊢
    rw [ih]
    simp only [List.sum_cons, List.length_cons, Nat.add_sub_cancel]
    have hcast : (s * ((t.length + 1 : ℕ) : ℚ) : ℚ) = s * (t.length : ℚ) + s := by
      push_cast
      ring
    rw [hcast, WithTop.coe_add]
    abel

/-- C5 (amended): for a VStack node without an explicit height, the
computed box height is the sum of the children's resolved heights plus
`spacing × (n−1)` plus vertical padding, clamped into
`[minHeight, maxHeight]` — it equals the raw sum only when that value
already lies within the constraints. -/
theorem c5_amended_vstack_height (lc : Node → Constraints → LayoutBox)
    (p : StackProps) (children : List Node) (c : Constraints)
    (hh : p.height = none) :
    (vstackCalculate lc p children c).height =
      constrainHeight
        (((children.map fun ch =>
              (lc ch (vstackChildConstraints p c)).height).sum +
            ((p.spacing.getD 0 * ((children.length - 1 : ℕ) : ℚ) : ℚ) : JNum)) +
          ((getVerticalPadding (resolvePadding p.padding) : ℚ) : JNum)) c := by
  unfold vstackCalculate vstackFinish
  dsimp only
  rw [hh]
  simp only [Option.map_none', Option.getD_none]
  rw [sumWithSpacing_eq]
  simp only [List.map_map, List.length_map, Function.comp_def]

/-- C5 counterexample: an empty VStack with no padding under constraints
with `minHeight = 5` has computed height 5, not the claimed
`Σ child heights + spacing × (n−1) + padding = 0`. -/
theorem c5_counterexample :
    (vstackCalculate lcZero stackPropsNone [] cMinHeight5).height =
      ((5 : ℚ) : JNum) ∧
    (vstackCalculate lcZero stackPropsNone [] cMinHeight5).height ≠
      (0 : JNum) := by
  have h : (vstackCalculate lcZero stackPropsNone [] cMinHeight5).height =
      ((5 : ℚ) : JNum) := by
    simp only [vstackCalculate, vstackFinish, stackPropsNone, cMinHeight5,
      sumWithSpacing, resolvePadding, getVerticalPadding, constrainHeight,
      List.map_nil, Option.getD_none, Option.map_none']
    norm_num
  refine ⟨h, ?_⟩
  rw [h]
  intro habs
  exact absurd (WithTop.coe_inj.mp habs) (by norm_num)

/-- C5 witness: a VStack of two dividers under `{0,100,0,200}`. -/
theorem c5_witness :
    stackPropsNone.height = none ∧
    (vstackCalculate lcZero stackPropsNone [exDividerNode, exDividerNode]
        cSimple).height =
      constrainHeight
        ((([exDividerNode, exDividerNode].map fun ch =>
              (lcZero ch (vstackChildConstraints stackPropsNone cSimple)).height).sum +
            ((stackPropsNone.spacing.getD 0 *
              (([exDividerNode, exDividerNode].length - 1 : ℕ) : ℚ) : ℚ) : JNum)) +
          ((getVerticalPadding (resolvePadding stackPropsNone.padding) : ℚ) : JNum))
        cSimple :=
  ⟨rfl,
    c5_amended_vstack_height lcZero stackPropsNone
      [exDividerNode, exDividerNode] cSimple rfl⟩

/-! ### C6 -/

/-- C6 (amended): `getContentBox` returns the inner origin
`(x + left, y + top)` and the inner width/height obtained by plain
subtraction of the paddings, with no flooring — the inner size is negative
exactly when the padding exceeds the box — while the separate
`contentWidth`/`contentHeight` helpers are the ones floored at 0. -/
theorem c6_amended_getContentBox (b : LayoutBox) (p : Padding) (w h : ℚ)
    (hp : b.padding = some p) (hw : b.width = (w : JNum))
    (hh : b.height = (h : JNum)) :
    (getContentBox b).x = b.x + ((p.left : ℚ) : JNum) ∧
    (getContentBox b).y = b.y + ((p.top : ℚ) : JNum) ∧
    (getContentBox b).width = ((w - p.left - p.right : ℚ) : JNum) ∧
    (getContentBox b).height = ((h - p.top - p.bottom : ℚ) : JNum) ∧
    ((getContentBox b).width < 0 ↔ w < p.left + p.right) ∧
    ((getContentBox b).height < 0 ↔ h < p.top + p.bottom) ∧
    (0 : JNum) ≤ contentWidth b ∧ (0 : JNum) ≤ contentHeight b := by
  have hx : (getContentBox b).x = b.x + ((p.left : ℚ) : JNum) := by
    simp only [getContentBox, hp, Option.getD_some]
  have hy : (getContentBox b).y = b.y + ((p.top : ℚ) : JNum) := by
    simp only [getContentBox, hp, Option.getD_some]
  have hwidth : (getContentBox b).width = ((w - p.left - p.right : ℚ) : JNum) := by
    simp only [getContentBox, hp, hw, Option.getD_some]
    rfl
  have hheight : (getContentBox b).height = ((h - p.top - p.bottom : ℚ) : JNum) := by
    simp only [getContentBox, hp, hh, Option.getD_some]
    rfl
  refine ⟨hx, hy, hwidth, hheight, ?_, ?_, ?_, ?_⟩
  · rw [hwidth, show (0 : JNum) = ((0 : ℚ) : JNum) from rfl, WithTop.coe_lt_coe]
    constructor <;> intro <;> linarith
  · rw [hheight, show (0 : JNum) = ((0 : ℚ) : JNum) from rfl, WithTop.coe_lt_coe]
    constructor <;> intro <;> linarith
  · rw [contentWidth, hp]
    exact le_max_left _ _
  · rw [contentHeight, hp]
    exact le_max_left _ _

/-- C6 counterexample: a 10×10 box with uniform padding 10 gets content
width −10 from `getContentBox` — negative, contradicting "floored at 0,
never negative". -/
theorem c6_counterexample :
    (getContentBox boxPadded10).width = ((-10 : ℚ) : JNum) ∧
    (getContentBox boxPadded10).width < 0 := by
  have h : (getContentBox boxPadded10).width = ((-10 : ℚ) : JNum) := by
    simp only [getContentBox, boxPadded10, Option.getD_some]
    norm_num [jsub]
  refine ⟨h, ?_⟩
  rw [h, show (0 : JNum) = ((0 : ℚ) : JNum) from rfl, WithTop.coe_lt_coe]
  norm_num

/-- C6 witness: the amended description evaluated on the same padded box. -/
theorem c6_witness :
    boxPadded10.padding = some ⟨10, 10, 10, 10⟩ ∧
    boxPadded10.width = ((10 : ℚ) : JNum) ∧
    boxPadded10.height = ((10 : ℚ) : JNum) ∧
    ((getContentBox boxPadded10).x =
        boxPadded10.x + (((Padding.mk 10 10 10 10).left : ℚ) : JNum) ∧
      (getContentBox boxPadded10).y =
        boxPadded10.y + (((Padding.mk 10 10 10 10).top : ℚ) : JNum) ∧
      (getContentBox boxPadded10).width =
        ((10 - (Padding.mk 10 10 10 10).left - (Padding.mk 10 10 10 10).right : ℚ) : JNum) ∧
      (getContentBox boxPadded10).height =
        ((10 - (Padding.mk 10 10 10 10).top - (Padding.mk 10 10 10 10).bottom : ℚ) : JNum) ∧
      ((getContentBox boxPadded10).width < 0 ↔
        (10 : ℚ) < (Padding.mk 10 10 10 10).left + (Padding.mk 10 10 10 10).right) ∧
      ((getContentBox boxPadded10).height < 0 ↔
        (10 : ℚ) < (Padding.mk 10 10 10 10).top + (Padding.mk 10 10 10 10).bottom) ∧
      (0 : JNum) ≤ contentWidth boxPadded10 ∧
      (0 : JNum) ≤ contentHeight boxPadded10) :=
  ⟨rfl, rfl, rfl,
    c6_amended_getContentBox boxPadded10 ⟨10, 10, 10, 10⟩ 10 10 rfl rfl rfl⟩

/-! ### C7 -/

/-- C7: when `layout` reaches a node whose tag has no calculator in the
registry, `layoutNode` throws an error whose message names the offending
variant, and never returns a (default-sized) box for it. -/
theorem c7_unregistered_variant_is_error (fm : FontMetricsM)
    (defaultFontSize : ℚ) (n : Node) (c : Constraints)
    (h : nodeType n ∉ registeredNodeTypes) :
    layoutNode fm defaultFontSize n c =
      .error ("No calculator registered for node type: " ++ nodeType n) ∧
    ∀ b : LayoutBox, layoutNode fm defaultFontSize n c ≠ .ok b := by
  cases n with
  | text p => exact absurd (by simp [nodeType, registeredNodeTypes]) h
  | vStack p ch => exact absurd (by simp [nodeType, registeredNodeTypes]) h
  | hStack p ch => exact absurd (by simp [nodeType, registeredNodeTypes]) h
  | divider p => exact absurd (by simp [nodeType, registeredNodeTypes]) h
  | spacer p => exact absurd (by simp [nodeType, registeredNodeTypes]) h
  | box p ch => exact absurd (by simp [nodeType, registeredNodeTypes]) h
  | unknown tag =>
    constructor
    · simp [layoutNode, nodeType]
    · intro b
      simp [layoutNode]

/-- C7 witness: a node with runtime tag `"table"`. -/
theorem c7_witness :
    nodeType (.unknown "table") ∉ registeredNodeTypes ∧
    (layoutNode defaultFontMetricsM 12 (.unknown "table") cSimple =
      .error ("No calculator registered for node type: " ++
        nodeType (.unknown "table")) ∧
    ∀ b : LayoutBox,
      layoutNode defaultFontMetricsM 12 (.unknown "table") cSimple ≠ .ok b) :=
  ⟨by decide,
    c7_unregistered_variant_is_error defaultFontMetricsM 12 (.unknown "table")
      cSimple (by decide)⟩

/-! ### C8 -/

/-- C8 (amended): with debug mode off, a laid-out text node with non-empty
content yields exactly one text-draw command, positioned at the box origin
and carrying the node style's font size, weight, style and color through
unchanged; an empty content string yields no command at all. -/
theorem c8_amended_text_command (p : TextProps) (bx : LayoutBox)
    (ch : Option (List LayoutNode)) (hc : p.content ≠ []) :
    generateCommands false (.mk (.text p) bx ch) =
      [.textCmd p.content bx.x bx.y
        ⟨p.style.bind TextStyle.fontSize, p.style.bind TextStyle.fontWeight,
          p.style.bind TextStyle.fontStyle, p.style.bind TextStyle.color,
          none⟩] := by
  simp [generateCommands, debugOutline, renderText, hc]

/-- C8 counterexample: a laid-out text node whose content is the empty
string produces zero commands, not one. -/
theorem c8_counterexample :
    generateCommands false exEmptyTextLayout = [] ∧
    (generateCommands false exEmptyTextLayout).length ≠ 1 := by
  have h : generateCommands false exEmptyTextLayout = [] := by
    simp [generateCommands, exEmptyTextLayout, debugOutline, renderText]
  exact ⟨h, by rw [h]; decide⟩

/-- C8 witness: the text node `"hi"` in a 50×20 box. -/
theorem c8_witness :
    textPropsHi.content ≠ [] ∧
    generateCommands false (.mk (.text textPropsHi) boxPlain none) =
      [.textCmd textPropsHi.content boxPlain.x boxPlain.y
        ⟨textPropsHi.style.bind TextStyle.fontSize,
          textPropsHi.style.bind TextStyle.fontWeight,
          textPropsHi.style.bind TextStyle.fontStyle,
          textPropsHi.style.bind TextStyle.color, none⟩] :=
  ⟨by decide,
    c8_amended_text_command textPropsHi boxPlain none (by decide)⟩

/-! ### C9 -/

/-- The trailing fallback of `breakLines` can never produce an empty
list. -/
theorem ifLenPos_ne_nil (l : List (List Char)) :
    (if 0 < l.length then l else [[]]) ≠ [] := by
  split
  · next hlen => exact List.length_pos.mp hlen
  · simp

/-- C9: `DefaultFontMetrics.breakLines` always returns at least one line;
in particular the empty input text produces the single empty line `['']`,
so a text node without explicit dimensions always measures at least one
line. -/
theorem c9_breakLines_nonempty (fontSize : ℚ) (maxWidth : JNum)
    (text : List Char) :
    DefaultFontMetrics.breakLines text fontSize maxWidth ≠ [] ∧
    DefaultFontMetrics.breakLines [] fontSize maxWidth = [[]] := by
  constructor
  · by_cases htop : maxWidth = ⊤
    · simp [DefaultFontMetrics.breakLines, htop]
    · unfold DefaultFontMetrics.breakLines
      rw [if_neg htop]
      exact ifLenPos_ne_nil _
  · by_cases htop : maxWidth = ⊤
    · simp [DefaultFontMetrics.breakLines, htop]
    · unfold DefaultFontMetrics.breakLines
      rw [if_neg htop]
      dsimp only
      by_cases hle :
          ((DefaultFontMetrics.measureText [] fontSize : ℚ) : JNum) ≤ maxWidth
      · simp [splitWsChunks, DefaultFontMetrics.breakLinesStep, hle]
      · have hlt := not_le.mp hle
        simp [splitWsChunks, DefaultFontMetrics.breakLinesStep, hle, hlt]

end FlowPdf
